import Mathlib

/-!
Shallow embedding of `aiothrottle/throttle.py`: the `Throttle` rate meter
and the `ThrottledStreamReader` flow-control reader, with theorems checking
the natural-language specification against the code.

Numbers: Python floats (times, rates) and ints (byte counts) are modelled
as rationals, so that the divisions in `time_left` and `current_rate` are
exact.  Exceptions are modelled with `Except`.  Calls issued to the
transport (`pause_reading` / `resume_reading`) are recorded as a list of
`TCall` values emitted by each operation; the possibility that the
transport lacks these methods (`AttributeError` swallowed by the code) is
modelled by the flag `hasFlowControl`.
-/

namespace Aiothrottle

/-- Python exceptions raised by the code: `ValueError` from the rate-limit
setter, `RuntimeError` from `current_rate`. -/
inductive PyError
  | valueError
  | runtimeError
deriving DecidableEq, Repr

/-- A call issued to the transport. -/
inductive TCall
  | pause
  | resume
deriving DecidableEq, Repr

/-- State of `Throttle` (the spec's RateMeter): `_limit`, `_io`,
`_reset_time` from `throttle.py`. -/
structure Throttle where
  limit : ℚ
  ioBytes : ℚ
  resetTime : ℚ
deriving DecidableEq, Repr

/-- `Throttle.__init__`: sets `_limit` through the validating setter
(raising `ValueError` for `limit <= 0`), `_io = 0`,
`_reset_time = loop.time()`. -/
def mkThrottle (limit : ℚ) (now : ℚ) : Except PyError Throttle :=
  if limit ≤ 0 then Except.error PyError.valueError
  else Except.ok { limit := limit, ioBytes := 0, resetTime := now }

/-- The `limit` property setter: raises `ValueError` when `value <= 0`,
otherwise replaces `_limit`. -/
def Throttle.setLimit (t : Throttle) (value : ℚ) : Except PyError Throttle :=
  if value ≤ 0 then Except.error PyError.valueError
  else Except.ok { t with limit := value }

/-- `Throttle.time_left`: `self._io / self._limit`. -/
def Throttle.timeLeft (t : Throttle) : ℚ :=
  t.ioBytes / t.limit

/-- `Throttle.add_io`: `self._io += byte_count`. -/
def Throttle.addIo (t : Throttle) (byteCount : ℚ) : Throttle :=
  { t with ioBytes := t.ioBytes + byteCount }

/-- `Throttle.reset_io`: `self._io = 0; self._reset_time = loop.time()`. -/
def Throttle.resetIo (t : Throttle) (now : ℚ) : Throttle :=
  { t with ioBytes := 0, resetTime := now }

/-- `Throttle.current_rate`: returns `0` when `_io <= 0`; otherwise raises
`RuntimeError` when `now - _reset_time <= 0`, else returns
`_io / (now - _reset_time)`. -/
def Throttle.currentRate (t : Throttle) (now : ℚ) : Except PyError ℚ :=
  if t.ioBytes ≤ 0 then Except.ok 0
  else if now - t.resetTime ≤ 0 then Except.error PyError.runtimeError
  else Except.ok (t.ioBytes / (now - t.resetTime))

/-- `Throttle.within_limit`: `current_rate() < _limit`, propagating the
`RuntimeError` from `current_rate`. -/
def Throttle.withinLimit (t : Throttle) (now : ℚ) : Except PyError Bool :=
  match t.currentRate now with
  | Except.error e => Except.error e
  | Except.ok r => Except.ok (decide (r < t.limit))

/-- C4 counterexample input: a meter freshly reset at time 5 with no bytes
accounted. -/
def c4Meter : Throttle := { limit := 10, ioBytes := 0, resetTime := 5 }

/-- C4 counterexample: the claim says `currentRate()` fails whenever
`now = resetTimestamp`, but on a meter with `accumulatedBytes = 0` sampled
at exactly `now = resetTimestamp = 5` the code returns `ok 0` and does not
fail (the `_io <= 0` early return precedes the duration check). -/
theorem c4_counterexample :
    mkThrottle 10 5 = Except.ok c4Meter ∧
    c4Meter.resetTime = 5 ∧
    c4Meter.currentRate 5 = Except.ok 0 ∧
    c4Meter.currentRate 5 ≠ Except.error PyError.runtimeError := by
  refine ⟨rfl, rfl, rfl, ?_⟩
  rw [show c4Meter.currentRate 5 = Except.ok 0 from rfl]
  exact fun h => Except.noConfusion h

/-- C4 (amended): `currentRate()` returns `0` whenever
`accumulatedBytes ≤ 0`, even at zero elapsed time; otherwise it fails with
the `NotMeasurable` error (`RuntimeError`) whenever `now − resetTimestamp ≤ 0`
— in particular when `now = resetTimestamp` — and returns
`accumulatedBytes / (now − resetTimestamp)` when the elapsed time is
positive. -/
theorem c4_currentRate_behaviour (t : Throttle) (now : ℚ) :
    (t.ioBytes ≤ 0 → t.currentRate now = Except.ok 0) ∧
    (0 < t.ioBytes → now - t.resetTime ≤ 0 →
      t.currentRate now = Except.error PyError.runtimeError) ∧
    (0 < t.ioBytes → 0 < now - t.resetTime →
      t.currentRate now = Except.ok (t.ioBytes / (now - t.resetTime))) := by
  unfold Throttle.currentRate
  refine ⟨fun h => by simp [h], fun h hd => ?_, fun h hd => ?_⟩
  · rw [if_neg (not_le.mpr h), if_pos hd]
  · rw [if_neg (not_le.mpr h), if_neg (not_le.mpr hd)]

/-- C4 witness: instantiates the amended theorem on concrete meters,
discharging each hypothesis. -/
theorem c4_witness :
    (Throttle.currentRate { limit := 10, ioBytes := 0, resetTime := 5 } 5 =
      Except.ok 0) ∧
    (Throttle.currentRate { limit := 10, ioBytes := 8, resetTime := 5 } 5 =
      Except.error PyError.runtimeError) ∧
    (Throttle.currentRate { limit := 10, ioBytes := 8, resetTime := 5 } 7 =
      Except.ok 4) := by
  refine ⟨(c4_currentRate_behaviour _ 5).1 (by norm_num),
    (c4_currentRate_behaviour _ 5).2.1 (by norm_num) (by norm_num), ?_⟩
  have h := (c4_currentRate_behaviour
    { limit := 10, ioBytes := 8, resetTime := 5 } 7).2.2 (by norm_num) (by norm_num)
  rw [h]
  norm_num

/-- C5: for every meter state with `accumulatedBytes ≥ 0` and
`targetRate > 0`, `timeLeft()` returns exactly
`accumulatedBytes / targetRate`, and this value is ≥ 0. -/
theorem c5_timeLeft_div (t : Throttle) (hio : 0 ≤ t.ioBytes)
    (hl : 0 < t.limit) :
    t.timeLeft = t.ioBytes / t.limit ∧ 0 ≤ t.timeLeft := by
  exact ⟨rfl, div_nonneg hio hl.le⟩

/-- C5 witness: the meter with 30 accounted bytes and target rate 4 has
`timeLeft = 30/4 ≥ 0`. -/
theorem c5_witness :
    Throttle.timeLeft { limit := 4, ioBytes := 30, resetTime := 0 } =
      30 / 4 ∧
    0 ≤ Throttle.timeLeft { limit := 4, ioBytes := 30, resetTime := 0 } :=
  c5_timeLeft_div { limit := 4, ioBytes := 30, resetTime := 0 }
    (by norm_num) (by norm_num)

/-- C6: the rate setter fails with `ValueError` for every `r ≤ 0`, leaving
the meter unchanged (the exception is raised before any assignment);
for every `r > 0` it replaces the target rate and leaves
`accumulatedBytes` and `resetTimestamp` unchanged. -/
theorem c6_setLimit (t : Throttle) (r : ℚ) :
    (r ≤ 0 → t.setLimit r = Except.error PyError.valueError) ∧
    (0 < r → t.setLimit r = Except.ok { t with limit := r } ∧
      Throttle.ioBytes { t with limit := r } = t.ioBytes ∧
      Throttle.resetTime { t with limit := r } = t.resetTime) := by
  unfold Throttle.setLimit
  constructor
  · intro h
    rw [if_pos h]
  · intro h
    rw [if_neg (not_le.mpr h)]
    exact ⟨rfl, rfl, rfl⟩

/-- C6 witness: rejecting `r = 0` and accepting `r = 7` on a concrete
meter, with the accumulated bytes and reset time untouched. -/
theorem c6_witness :
    (Throttle.setLimit { limit := 4, ioBytes := 30, resetTime := 1 } 0 =
      Except.error PyError.valueError) ∧
    (Throttle.setLimit { limit := 4, ioBytes := 30, resetTime := 1 } 7 =
      Except.ok { limit := 7, ioBytes := 30, resetTime := 1 }) :=
  ⟨(c6_setLimit _ 0).1 le_rfl,
   ((c6_setLimit { limit := 4, ioBytes := 30, resetTime := 1 } 7).2
     (by norm_num)).1⟩

/-- State of `ThrottledStreamReader`.  `buffer` is the internal byte buffer
inherited from `aiohttp.StreamReader` (`feed_data` appends, `read*` drains
from the front); `bLimit` is `_b_limit`; `bLimitReached` is
`_b_limit_reached`; `checkHandle` models `_check_handle` as the absolute
time at which the pending `call_later` timer fires (`none` = no timer);
`streamPaused` is the `_stream.paused` mirror; `hasFlowControl` records
whether `_stream.transport` actually has `pause_reading`/`resume_reading`
(when `false`, the `AttributeError` branch is taken and the mirror is left
unchanged). -/
structure ReaderState where
  throttle : Throttle
  buffer : List ℕ
  bLimit : ℤ
  bLimitReached : Bool
  checkHandle : Option ℚ
  throttling : Bool
  streamPaused : Bool
  hasFlowControl : Bool
deriving DecidableEq, Repr

/-- Current buffer occupancy `len(self._buffer)`. -/
def bufSize (s : ReaderState) : ℤ :=
  (s.buffer.length : ℤ)

/-- `_try_pause`: returns early when the mirror says paused; otherwise
issues `pause_reading` and sets the mirror (the `AttributeError` case
issues nothing and leaves the mirror unchanged). -/
def tryPause (s : ReaderState) : ReaderState × List TCall :=
  if s.streamPaused = true then (s, [])
  else if s.hasFlowControl = true then
    ({ s with streamPaused := true }, [TCall.pause])
  else (s, [])

/-- `_try_resume`: returns early when the mirror says not paused; otherwise
issues `resume_reading` and clears the mirror (the `AttributeError` case
issues nothing and leaves the mirror unchanged). -/
def tryResume (s : ReaderState) : ReaderState × List TCall :=
  if s.streamPaused = false then (s, [])
  else if s.hasFlowControl = true then
    ({ s with streamPaused := false }, [TCall.resume])
  else (s, [])

/-- `_schedule_resume`: cancels any pending timer (overwrites the handle)
and schedules `_check_callback` after `time_left()` seconds. -/
def scheduleResume (now : ℚ) (s : ReaderState) : ReaderState :=
  { s with checkHandle := some (now + s.throttle.timeLeft) }

/-- `_check_callback`: clears the handle and calls `_try_resume` —
unconditionally, with no re-check of the buffer occupancy. -/
def checkCallback (s : ReaderState) : ReaderState × List TCall :=
  tryResume { s with checkHandle := none }

/-- `_check_limits`: cancels the pending timer; when not throttling,
resumes if paused and the buffer is under `_b_limit`; when throttling,
pauses, then either records that the buffer limit was reached (no timer)
or schedules the rate-based resume. -/
def checkLimits (now : ℚ) (s : ReaderState) : ReaderState × List TCall :=
  let s1 : ReaderState := { s with checkHandle := none }
  if s1.throttling = false then
    if s1.streamPaused = true ∧ bufSize s1 < s1.bLimit then tryResume s1
    else (s1, [])
  else
    let p := tryPause s1
    if p.1.bLimit ≤ bufSize p.1 then
      ({ p.1 with bLimitReached := true }, p.2)
    else
      (scheduleResume now p.1, p.2)

/-- `feed_data`: appends the data to the buffer (the base class
`StreamReader.feed_data`), resets and re-primes the throttle with
`len(data)`, then runs `_check_limits`. -/
def feedData (data : List ℕ) (now : ℚ) (s : ReaderState) :
    ReaderState × List TCall :=
  let s1 : ReaderState := { s with buffer := s.buffer ++ data }
  let s2 : ReaderState :=
    { s1 with throttle := (s1.throttle.resetIo now).addIo (data.length : ℚ) }
  checkLimits now s2

/-- `_check_buffer_limit` (run at the end of every `read*`): when paused,
queries `within_limit()`; on `RuntimeError` it sleeps and retries later
(modelled as leaving the state unchanged in this step); otherwise resumes
when the buffer is under `_b_limit` and (not throttling or within the
rate), else schedules the rate-based resume timer. -/
def checkBufferLimit (now : ℚ) (s : ReaderState) : ReaderState × List TCall :=
  if s.streamPaused = true then
    match s.throttle.withinLimit now with
    | Except.error _ => (s, [])
    | Except.ok wl =>
      if bufSize s < s.bLimit ∧ (s.throttling = false ∨ wl = true) then
        let r := tryResume s
        ({ r.1 with bLimitReached := false }, r.2)
      else
        (scheduleResume now s, [])
  else (s, [])

/-- A `read*` call: drains up to `n` bytes from the front of the buffer,
then runs `_check_buffer_limit`; returns the drained data alongside the
new state and the transport calls issued. -/
def readDrain (n : ℕ) (now : ℚ) (s : ReaderState) :
    (ReaderState × List TCall) × List ℕ :=
  (checkBufferLimit now { s with buffer := s.buffer.drop n },
    s.buffer.take n)

/-- `unlimit_rate`: disables throttling, then resumes if the buffer is
under `_b_limit`. -/
def unlimitRate (s : ReaderState) : ReaderState × List TCall :=
  let s1 : ReaderState := { s with throttling := false }
  if bufSize s1 < s1.bLimit then tryResume s1 else (s1, [])

/-- `limit_rate`: sets the throttle's limit through the validating setter
(the `ValueError` propagates, leaving the reader unchanged), then enables
throttling. -/
def limitRate (r : ℚ) (s : ReaderState) : Except PyError ReaderState :=
  match s.throttle.setLimit r with
  | Except.error e => Except.error e
  | Except.ok t => Except.ok { s with throttle := t, throttling := true }

/-- `ThrottledStreamReader.__init__`: builds the throttle (propagating the
`ValueError` for a non-positive rate — fail fast, no partial object), sets
`_b_limit = buffer_limit * 2` with no validation of `buffer_limit`, and
issues `resume_reading` when the stream is already paused (without
updating the mirror). -/
def mkReader (rateLimit : ℚ) (bufferLimit : ℤ) (streamPaused hasFC : Bool)
    (now : ℚ) : Except PyError (ReaderState × List TCall) :=
  match mkThrottle rateLimit now with
  | Except.error e => Except.error e
  | Except.ok t =>
    let s : ReaderState :=
      { throttle := t, buffer := [], bLimit := bufferLimit * 2,
        bLimitReached := false, checkHandle := none, throttling := true,
        streamPaused := streamPaused, hasFlowControl := hasFC }
    if streamPaused = true ∧ hasFC = true then Except.ok (s, [TCall.resume])
    else Except.ok (s, [])

/-- Externally observable events driving the reader: a transport feed, a
consumer `read*`, the scheduled timer firing, and the administrative
calls. -/
inductive Event
  | feed (data : List ℕ) (now : ℚ)
  | readOp (n : ℕ) (now : ℚ)
  | timerFire (now : ℚ)
  | unlimit
  | limitTo (r : ℚ)
deriving DecidableEq, Repr

/-- One step of the reader under an event (for `limitTo`, a `ValueError`
leaves the state unchanged, as the exception is raised before any
mutation). -/
def step (e : Event) (s : ReaderState) : ReaderState × List TCall :=
  match e with
  | Event.feed data now => feedData data now s
  | Event.readOp n now => (readDrain n now s).1
  | Event.timerFire _ => checkCallback s
  | Event.unlimit => unlimitRate s
  | Event.limitTo r =>
    match limitRate r s with
    | Except.error _ => (s, [])
    | Except.ok s2 => (s2, [])

/-- Whether an event may occur at the given state and current time: event
times never go backwards, and the timer fires exactly at the scheduled
time of the pending handle. -/
def validEvent (s : ReaderState) (tprev : ℚ) (e : Event) : Bool :=
  match e with
  | Event.feed _ now => decide (tprev ≤ now)
  | Event.readOp _ now => decide (tprev ≤ now)
  | Event.timerFire now =>
      decide (tprev ≤ now) && decide (s.checkHandle = some now)
  | Event.unlimit => true
  | Event.limitTo _ => true

/-- The time after an event. -/
def eventTime (e : Event) (tprev : ℚ) : ℚ :=
  match e with
  | Event.feed _ now => now
  | Event.readOp _ now => now
  | Event.timerFire now => now
  | Event.unlimit => tprev
  | Event.limitTo _ => tprev

/-- Runs a sequence of events from a state, checking validity of each
event, and accumulating every transport call issued.  Returns `none` when
some event is invalid (time going backwards, or a timer firing that was
not scheduled). -/
def runValid (s : ReaderState) (tprev : ℚ) :
    List Event → Option (ReaderState × ℚ × List TCall)
  | [] => some (s, tprev, [])
  | e :: es =>
    if validEvent s tprev e then
      match runValid (step e s).1 (eventTime e tprev) es with
      | none => none
      | some (s2, t2, cs) => some (s2, t2, (step e s).2 ++ cs)
    else none

/-- Closed form of `_try_pause`. -/
theorem tryPause_eq (s : ReaderState) :
    tryPause s =
      if s.streamPaused = false ∧ s.hasFlowControl = true then
        ({ s with streamPaused := true }, [TCall.pause])
      else (s, []) := by
  unfold tryPause
  by_cases h1 : s.streamPaused = true <;> by_cases h2 : s.hasFlowControl = true <;>
    simp [h1, h2]

/-- Closed form of `_try_resume`. -/
theorem tryResume_eq (s : ReaderState) :
    tryResume s =
      if s.streamPaused = true ∧ s.hasFlowControl = true then
        ({ s with streamPaused := false }, [TCall.resume])
      else (s, []) := by
  unfold tryResume
  by_cases h1 : s.streamPaused = true <;> by_cases h2 : s.hasFlowControl = true <;>
    simp [h1, h2]

/-- `_check_limits` never touches the throttle. -/
theorem checkLimits_throttle (now : ℚ) (s : ReaderState) :
    (checkLimits now s).1.throttle = s.throttle := by
  unfold checkLimits
  dsimp only
  split
  · split
    · rw [tryResume_eq]
      split <;> rfl
    · rfl
  · rw [tryPause_eq]
    split <;> split <;> rfl

/-- When throttling, `_check_limits` marks `_b_limit_reached` exactly when
buffer occupancy is at or above `_b_limit`, otherwise it is left as it
was. -/
theorem checkLimits_reached (now : ℚ) (s : ReaderState)
    (ht : s.throttling = true) :
    (checkLimits now s).1.bLimitReached =
      if s.bLimit ≤ bufSize s then true else s.bLimitReached := by
  unfold checkLimits
  dsimp only
  rw [ht]
  simp only [Bool.true_eq_false, if_false]
  rw [tryPause_eq]
  split
  · dsimp only
    simp only [bufSize]
    split <;> rfl
  · dsimp only
    simp only [bufSize]
    split <;> rfl

/-- C3: after every `feed_data(data)` call the meter's accumulated byte
count equals exactly `len(data)`: `feed_data` resets the meter
(`reset_io`) and re-primes it with the size of the chunk just fed
(`add_io(len(data))`), and `_check_limits` does not touch it. -/
theorem c3_feed_reprimes_meter (s : ReaderState) (data : List ℕ) (now : ℚ) :
    ((feedData data now s).1).throttle.ioBytes = (data.length : ℚ) ∧
    ((feedData data now s).1).throttle.resetTime = now := by
  unfold feedData
  rw [checkLimits_throttle]
  simp [Throttle.addIo, Throttle.resetIo]

/-- C9 counterexample reader: the state successfully constructed with
`buffer_limit = 0`. -/
def c9Reader : ReaderState :=
  { throttle := { limit := 1, ioBytes := 0, resetTime := 0 }, buffer := [],
    bLimit := 0, bLimitReached := false, checkHandle := none,
    throttling := true, streamPaused := false, hasFlowControl := true }

/-- C9 counterexample: the claim says construction fails for every
`bufferLimit ≤ 0`, but `__init__` performs no validation of
`buffer_limit`: constructing with `rate_limit = 1` and `buffer_limit = 0`
succeeds. -/
theorem c9_counterexample :
    (0 : ℤ) ≤ 0 ∧ mkReader 1 0 false true 0 = Except.ok (c9Reader, []) :=
  ⟨le_rfl, rfl⟩

/-- C9 (amended): construction fails fast with `ValueError` (no partial
object) for every `targetRate ≤ 0`; `bufferLimit` is not validated —
construction succeeds for every `bufferLimit` whenever the rate is
positive, including `bufferLimit ≤ 0`. -/
theorem c9_construction_validation (r : ℚ) (b : ℤ) (paused fc : Bool)
    (now : ℚ) :
    (r ≤ 0 → mkReader r b paused fc now = Except.error PyError.valueError) ∧
    (0 < r → ∃ s calls, mkReader r b paused fc now = Except.ok (s, calls) ∧
      s.throttle.limit = r ∧ s.bLimit = b * 2) := by
  unfold mkReader mkThrottle
  constructor
  · intro h
    rw [if_pos h]
  · intro h
    rw [if_neg (not_le.mpr h)]
    dsimp only
    split
    · exact ⟨_, _, rfl, rfl, rfl⟩
    · exact ⟨_, _, rfl, rfl, rfl⟩

/-- C9 witness: a negative rate is rejected; a positive rate with a
non-positive buffer limit is accepted. -/
theorem c9_witness :
    mkReader (-1) 4 false true 0 = Except.error PyError.valueError ∧
    (∃ s calls, mkReader 5 (-3) false true 0 = Except.ok (s, calls) ∧
      s.throttle.limit = 5 ∧ s.bLimit = (-3) * 2) :=
  ⟨(c9_construction_validation (-1) 4 false true 0).1 (by norm_num),
   (c9_construction_validation 5 (-3) false true 0).2 (by norm_num)⟩

/-- C10: the internal threshold the reader compares buffer occupancy
against is `2 * buffer_limit` (`self._b_limit = buffer_limit * 2`), not
`buffer_limit`: after construction with `buffer_limit = b`, a first feed
marks the buffer limit reached exactly when the fed size is at least
`2 * b`. -/
theorem c10_threshold_doubled (r : ℚ) (b : ℤ) (paused fc : Bool) (now : ℚ)
    (s : ReaderState) (calls : List TCall)
    (h : mkReader r b paused fc now = Except.ok (s, calls)) :
    s.bLimit = 2 * b ∧
    ∀ (data : List ℕ) (t : ℚ),
      ((feedData data t s).1.bLimitReached = true ↔
        2 * b ≤ (data.length : ℤ)) := by
  unfold mkReader mkThrottle at h
  by_cases hr : r ≤ 0
  · rw [if_pos hr] at h
    exact absurd h (fun h2 => Except.noConfusion h2)
  · rw [if_neg hr] at h
    dsimp only at h
    have hs : s.bLimit = b * 2 ∧ s.buffer = [] ∧ s.bLimitReached = false ∧
        s.throttling = true ∧ s.streamPaused = paused ∧
        s.hasFlowControl = fc := by
      split at h <;> (cases h; exact ⟨rfl, rfl, rfl, rfl, rfl, rfl⟩)
    obtain ⟨h1, h2, h3, h4, h5, h6⟩ := hs
    refine ⟨by rw [h1]; ring, ?_⟩
    intro data t
    unfold feedData
    dsimp only
    rw [checkLimits_reached]
    · simp only [bufSize]
      rw [h1, h2, h3]
      simp only [List.nil_append]
      by_cases hle : b * 2 ≤ (data.length : ℤ)
      · rw [if_pos hle]
        simp only [true_iff]
        omega
      · rw [if_neg hle]
        simp only [Bool.false_eq_true, false_iff]
        omega
    · dsimp only
      exact h4

/-- C10 witness: with `buffer_limit = 4`, a feed of 7 bytes (under the
doubled threshold 8) does not mark the limit reached. -/
theorem c10_witness :
    c9Reader.bLimit = 2 * 0 ∧
    ((feedData (List.replicate 7 0) 1 c9Reader).1.bLimitReached = true ↔
      2 * (0 : ℤ) ≤ ((List.replicate 7 0).length : ℤ)) :=
  ⟨(c10_threshold_doubled 1 0 false true 0 c9Reader [] rfl).1,
   (c10_threshold_doubled 1 0 false true 0 c9Reader [] rfl).2
     (List.replicate 7 0) 1⟩

/-- C7: calling `unlimit_rate()` twice in a row has the same observable
effect as calling it once: the second call leaves the state unchanged and
issues no transport call, so at most one `resume_reading` is issued across
both calls; each call disables throttling and, when the buffer is under
the threshold and the transport is paused (and supports flow control),
resumes the transport immediately. -/
theorem c7_unlimit_idempotent (s : ReaderState) :
    (unlimitRate (unlimitRate s).1).1 = (unlimitRate s).1 ∧
    (unlimitRate (unlimitRate s).1).2 = [] ∧
    ((unlimitRate s).2 ++ (unlimitRate (unlimitRate s).1).2).length ≤ 1 ∧
    (unlimitRate s).1.throttling = false ∧
    (bufSize s < s.bLimit → s.streamPaused = true → s.hasFlowControl = true →
      (unlimitRate s).2 = [TCall.resume] ∧
      (unlimitRate s).1.streamPaused = false) := by
  obtain ⟨t, buf, bl, br, ch, th, sp, fc⟩ := s
  by_cases hb : (buf.length : ℤ) < bl <;>
    cases sp <;> cases fc <;>
      simp [unlimitRate, tryResume, bufSize, hb]

/-- A paused reader on a transport that supports flow control, with a
timer pending at time 1, used to instantiate witnesses. -/
def pausedReader : ReaderState :=
  { throttle := { limit := 1, ioBytes := 0, resetTime := 0 }, buffer := [],
    bLimit := 2, bLimitReached := false, checkHandle := some 1,
    throttling := true, streamPaused := true, hasFlowControl := true }

/-- C7 witness: a paused reader with an under-limit buffer on a capable
transport: the first `unlimit_rate()` resumes, the second is a no-op. -/
theorem c7_witness :
    (unlimitRate (unlimitRate pausedReader).1).1 = (unlimitRate pausedReader).1 ∧
    (unlimitRate (unlimitRate pausedReader).1).2 = [] ∧
    (unlimitRate pausedReader).2 = [TCall.resume] ∧
    (unlimitRate pausedReader).1.streamPaused = false :=
  ⟨(c7_unlimit_idempotent pausedReader).1, (c7_unlimit_idempotent pausedReader).2.1,
   ((c7_unlimit_idempotent pausedReader).2.2.2.2 (by decide) rfl rfl).1,
   ((c7_unlimit_idempotent pausedReader).2.2.2.2 (by decide) rfl rfl).2⟩

/-- Every call emitted by `_try_pause` is a `pause_reading` issued with the
mirror saying not paused. -/
theorem tryPause_calls (s : ReaderState) (c : TCall)
    (hc : c ∈ (tryPause s).2) :
    c = TCall.pause ∧ s.streamPaused = false := by
  rw [tryPause_eq] at hc
  split at hc
  · rename_i h
    simp only [List.mem_singleton] at hc
    exact ⟨hc, h.1⟩
  · simp at hc

/-- Every call emitted by `_try_resume` is a `resume_reading` issued with
the mirror saying paused. -/
theorem tryResume_calls (s : ReaderState) (c : TCall)
    (hc : c ∈ (tryResume s).2) :
    c = TCall.resume ∧ s.streamPaused = true := by
  rw [tryResume_eq] at hc
  split at hc
  · rename_i h
    simp only [List.mem_singleton] at hc
    exact ⟨hc, h.1⟩
  · simp at hc

/-- Calls emitted by `_check_limits` go through `_try_pause` /
`_try_resume` on a state with the same mirror value. -/
theorem checkLimits_calls (now : ℚ) (s : ReaderState) (c : TCall)
    (hc : c ∈ (checkLimits now s).2) :
    (c = TCall.pause ∧ s.streamPaused = false) ∨
    (c = TCall.resume ∧ s.streamPaused = true) := by
  unfold checkLimits at hc
  dsimp only at hc
  split at hc
  · split at hc
    · have h := tryResume_calls _ _ hc
      exact Or.inr h
    · simp at hc
  · split at hc
    · have h := tryPause_calls _ _ hc
      exact Or.inl h
    · have h := tryPause_calls _ _ hc
      exact Or.inl h

/-- Calls emitted by `_check_buffer_limit` go through `_try_resume` on a
state with the same mirror value. -/
theorem checkBufferLimit_calls (now : ℚ) (s : ReaderState) (c : TCall)
    (hc : c ∈ (checkBufferLimit now s).2) :
    c = TCall.resume ∧ s.streamPaused = true := by
  unfold checkBufferLimit at hc
  split at hc
  · split at hc
    · simp at hc
    · split at hc
      · exact tryResume_calls _ _ hc
      · simp at hc
  · simp at hc

/-- Calls emitted by `_check_buffer_limit`, phrased for a state reached by
draining the buffer (the mirror is unchanged by the drain). -/
theorem readDrain_calls (n : ℕ) (now : ℚ) (s : ReaderState) (c : TCall)
    (hc : c ∈ (readDrain n now s).1.2) :
    c = TCall.resume ∧ s.streamPaused = true := by
  unfold readDrain at hc
  dsimp only at hc
  have h := checkBufferLimit_calls _ _ _ hc
  exact h

/-- C8: for every state and every operation, each `pause_reading` issued
to the transport happens with the `paused` mirror saying not paused, and
each `resume_reading` with the mirror saying paused: every transport call
goes through `_try_pause` / `_try_resume`, which consult the mirror first
(and no operation changes the mirror before its call). -/
theorem c8_mirror_consulted (s : ReaderState) (e : Event) (c : TCall)
    (hc : c ∈ (step e s).2) :
    (c = TCall.pause → s.streamPaused = false) ∧
    (c = TCall.resume → s.streamPaused = true) := by
  have key : (c = TCall.pause ∧ s.streamPaused = false) ∨
      (c = TCall.resume ∧ s.streamPaused = true) := by
    cases e with
    | feed data now =>
      simp only [step] at hc
      unfold feedData at hc
      dsimp only at hc
      have h := checkLimits_calls _ _ _ hc
      exact h
    | readOp n now =>
      simp only [step] at hc
      have h := readDrain_calls _ _ _ _ hc
      exact Or.inr h
    | timerFire now =>
      simp only [step] at hc
      unfold checkCallback at hc
      have h := tryResume_calls _ _ hc
      exact Or.inr h
    | unlimit =>
      simp only [step] at hc
      unfold unlimitRate at hc
      dsimp only at hc
      split at hc
      · have h := tryResume_calls _ _ hc
        exact Or.inr h
      · simp at hc
    | limitTo r =>
      simp only [step] at hc
      split at hc <;> simp at hc
  rcases key with ⟨rfl, h⟩ | ⟨rfl, h⟩
  · exact ⟨fun _ => h, fun hcon => TCall.noConfusion hcon⟩
  · exact ⟨fun hcon => TCall.noConfusion hcon, fun _ => h⟩

/-- C8 witness: the timer firing on `pausedReader` emits a `resume_reading`,
and the theorem yields that the mirror said paused at that point. -/
theorem c8_witness :
    TCall.resume ∈ (step (Event.timerFire 1) pausedReader).2 ∧
    pausedReader.streamPaused = true :=
  ⟨by decide,
   (c8_mirror_consulted pausedReader (Event.timerFire 1) TCall.resume
     (by decide)).2 rfl⟩

/-- C1 counterexample: the freshly constructed reader (rate 10,
`buffer_limit` 4, so `_b_limit = 8`). -/
def c1Start : ReaderState :=
  { throttle := { limit := 10, ioBytes := 0, resetTime := 0 }, buffer := [],
    bLimit := 8, bLimitReached := false, checkHandle := none,
    throttling := true, streamPaused := false, hasFlowControl := true }

/-- C1 counterexample: the reader right after feeding 20 bytes at
`t = 0`: paused for the buffer (20 ≥ 8), no timer. -/
def c1Fed : ReaderState :=
  { throttle := { limit := 10, ioBytes := 20, resetTime := 0 },
    buffer := List.replicate 20 0, bLimit := 8, bLimitReached := true,
    checkHandle := none, throttling := true, streamPaused := true,
    hasFlowControl := true }

/-- C1 counterexample: the reader after feeding 20 bytes at `t = 0` and
reading 2 bytes at `t = 1`: 18 bytes buffered (over the limit 8), paused,
with the resume timer scheduled for `t = 3`. -/
def c1Mid : ReaderState :=
  { throttle := { limit := 10, ioBytes := 20, resetTime := 0 },
    buffer := List.replicate 18 0, bLimit := 8, bLimitReached := true,
    checkHandle := some 3, throttling := true, streamPaused := true,
    hasFlowControl := true }

/-- C1 counterexample: a reachable state in which the scheduled timer
fires while buffer occupancy (18) is over `_b_limit` (8), and the
transport is resumed anyway: construct with rate 10 and buffer limit 4,
feed 20 bytes at `t = 0` (pause, no timer), read 2 bytes at `t = 1`
(still over the limit; the post-read check schedules the rate timer for
`t = 3`), and let the timer fire at `t = 3`: `_check_callback` calls
`_try_resume` without re-checking the buffer, issuing `resume_reading`
while occupancy is over the limit. -/
theorem c1_counterexample :
    mkReader 10 4 false true 0 = Except.ok (c1Start, []) ∧
    runValid c1Start 0
      [Event.feed (List.replicate 20 0) 0, Event.readOp 2 1] =
      some (c1Mid, 1, [TCall.pause]) ∧
    c1Mid.bLimit ≤ bufSize c1Mid ∧
    validEvent c1Mid 1 (Event.timerFire 3) = true ∧
    (step (Event.timerFire 3) c1Mid).2 = [TCall.resume] ∧
    (step (Event.timerFire 3) c1Mid).1.streamPaused = false := by
  have h1 : step (Event.feed (List.replicate 20 0) 0) c1Start =
      (c1Fed, [TCall.pause]) := by
    norm_num [step, feedData, checkLimits, tryPause, scheduleResume, bufSize,
      Throttle.resetIo, Throttle.addIo, Throttle.timeLeft, c1Start, c1Fed,
      Prod.ext_iff]
  have h2 : step (Event.readOp 2 1) c1Fed = (c1Mid, []) := by
    norm_num [step, readDrain, checkBufferLimit, tryResume, scheduleResume,
      bufSize, Throttle.withinLimit, Throttle.currentRate, Throttle.timeLeft,
      c1Fed, c1Mid, Prod.ext_iff, List.drop_replicate, List.take_replicate]
  have hv1 : validEvent c1Start 0 (Event.feed (List.replicate 20 0) 0) =
      true := by decide
  have hv2 : validEvent c1Fed 0 (Event.readOp 2 1) = true := by decide
  refine ⟨rfl, ?_, by decide, by decide, rfl, rfl⟩
  simp only [runValid, hv1, hv2, h1, h2, eventTime, if_true, List.nil_append,
    List.append_nil]

/-- C1 (amended): when the scheduled resume timer fires while the reader
is paused (on a transport supporting flow control), `_check_callback`
resumes the transport unconditionally, without re-checking buffer
occupancy — even when occupancy is at or over the buffer limit. -/
theorem c1_timer_resume_unconditional (s : ReaderState) (now : ℚ)
    (hp : s.streamPaused = true) (hfc : s.hasFlowControl = true)
    (hover : s.bLimit ≤ bufSize s) :
    (step (Event.timerFire now) s).2 = [TCall.resume] ∧
    (step (Event.timerFire now) s).1.streamPaused = false ∧
    (step (Event.timerFire now) s).1.checkHandle = none := by
  simp [step, checkCallback, tryResume, hp, hfc]

/-- C1 witness: the amended theorem instantiated at the reachable
over-limit state `c1Mid` with the timer firing at `t = 3`. -/
theorem c1_witness :
    c1Mid.streamPaused = true ∧ c1Mid.hasFlowControl = true ∧
    c1Mid.bLimit ≤ bufSize c1Mid ∧
    (step (Event.timerFire 3) c1Mid).2 = [TCall.resume] ∧
    (step (Event.timerFire 3) c1Mid).1.streamPaused = false :=
  ⟨rfl, rfl, by decide,
   (c1_timer_resume_unconditional c1Mid 3 rfl rfl (by decide)).1,
   (c1_timer_resume_unconditional c1Mid 3 rfl rfl (by decide)).2.1⟩

/-- Event sequences consisting only of transport feeds and timer
firings — no consumer `read*` drains and no administrative calls. -/
def feedFireOnly : List Event → Bool
  | [] => true
  | Event.feed _ _ :: es => feedFireOnly es
  | Event.timerFire _ :: es => feedFireOnly es
  | _ => false

/-- The configuration a feed at-or-over the buffer limit leaves the
throttling reader in: paused, no pending timer, occupancy at or over the
limit. -/
def overLimitPaused (s : ReaderState) : Prop :=
  s.streamPaused = true ∧ s.checkHandle = none ∧ s.throttling = true ∧
  s.bLimit ≤ bufSize s

/-- Exact effect of `feed_data` when throttling and the new occupancy is
at or over `_b_limit` (requiring the reader to be already paused or the
transport to support pausing): the data is appended, the meter re-primed,
the limit-reached flag set, no timer scheduled, the reader paused, and the
only possible transport call is a `pause_reading`. -/
theorem feedData_over_limit (s : ReaderState) (data : List ℕ) (now : ℚ)
    (hth : s.throttling = true)
    (hor : s.streamPaused = true ∨ s.hasFlowControl = true)
    (hfull : s.bLimit ≤ bufSize s + (data.length : ℤ)) :
    (feedData data now s).1 =
      { throttle := (s.throttle.resetIo now).addIo (data.length : ℚ),
        buffer := s.buffer ++ data, bLimit := s.bLimit,
        bLimitReached := true, checkHandle := none, throttling := true,
        streamPaused := true, hasFlowControl := s.hasFlowControl } ∧
    (feedData data now s).2 =
      (if s.streamPaused = true then [] else [TCall.pause]) := by
  obtain ⟨t, buf, bl, br, ch, th, sp, fc⟩ := s
  simp only [bufSize] at hfull
  cases th with
  | false => exact absurd hth (by simp)
  | true =>
    cases sp with
    | false =>
      rcases hor with h | h
      · exact absurd h (by simp)
      · cases fc with
        | false => exact absurd h (by simp)
        | true =>
          unfold feedData checkLimits tryPause
          simp [hfull, bufSize]
    | true =>
      unfold feedData checkLimits tryPause
      simp [hfull, bufSize]

/-- While only feeds and timer events occur from an `overLimitPaused`
state, the reader stays paused and never issues `resume_reading`: feeds
keep the occupancy over the limit and schedule no timer, and a timer
cannot fire because none is pending. -/
theorem runValid_feedFire_paused (es : List Event) :
    ∀ (s : ReaderState) (t : ℚ), feedFireOnly es = true →
      overLimitPaused s →
      ∀ s2 t2 cs, runValid s t es = some (s2, t2, cs) →
        s2.streamPaused = true ∧ TCall.resume ∉ cs := by
  induction es with
  | nil =>
    intro s t _ hinv s2 t2 cs h
    unfold runValid at h
    cases h
    exact ⟨hinv.1, by simp⟩
  | cons e es ih =>
    intro s t hff hinv s2 t2 cs h
    unfold runValid at h
    split at h
    · rename_i hval
      revert h
      cases hrun : runValid (step e s).1 (eventTime e t) es with
      | none => intro h; exact absurd h (by simp)
      | some r =>
        obtain ⟨s3, t3, cs3⟩ := r
        intro h
        rw [Option.some_inj] at h
        injection h with h1 h2
        injection h2 with h3 h4
        subst h1
        subst h3
        subst h4
        cases e with
        | feed data tnow =>
          have hfull : s.bLimit ≤ bufSize s + (data.length : ℤ) :=
            le_trans hinv.2.2.2
              (le_add_of_nonneg_right (Int.natCast_nonneg _))
          have hfeed := feedData_over_limit s data tnow hinv.2.2.1
            (Or.inl hinv.1) hfull
          have hinv2 : overLimitPaused (feedData data tnow s).1 := by
            rw [hfeed.1]
            refine ⟨rfl, rfl, rfl, ?_⟩
            dsimp only
            simpa [bufSize, List.length_append] using hfull
          have hcalls : (step (Event.feed data tnow) s).2 = [] := by
            simp only [step]
            rw [hfeed.2, if_pos hinv.1]
          have hrec := ih (step (Event.feed data tnow) s).1
            (eventTime (Event.feed data tnow) t) (by simpa [feedFireOnly] using hff)
            hinv2 s3 t3 cs3 hrun
          rw [hcalls]
          simpa using hrec
        | readOp n tnow => simp [feedFireOnly] at hff
        | timerFire tnow =>
          exfalso
          simp only [validEvent, Bool.and_eq_true, decide_eq_true_eq] at hval
          rw [hinv.2.1] at hval
          exact Option.noConfusion hval.2
        | unlimit => simp [feedFireOnly] at hff
        | limitTo r => simp [feedFireOnly] at hff
    · exact absurd h (by simp)

/-- C2 (amended): a `feed_data` call that brings buffer occupancy to or
above `_b_limit` while throttling (on a transport supporting flow
control) still appends every fed byte to the buffer, pauses the
transport, schedules no resume timer, and issues at most a
`pause_reading` (never a resume); and while only further feeds or timer
events occur — no consumer drain — the transport stays paused and no
`resume_reading` is ever issued.  (A subsequent drain need not bring
occupancy under the limit for a resume to happen: the post-drain check
schedules a rate timer whose firing resumes the transport regardless,
see the counterexample.) -/
theorem c2_feed_at_limit (s : ReaderState) (data : List ℕ) (now : ℚ)
    (hth : s.throttling = true) (hfc : s.hasFlowControl = true)
    (hfull : s.bLimit ≤ bufSize s + (data.length : ℤ)) :
    (feedData data now s).1.buffer = s.buffer ++ data ∧
    (feedData data now s).1.streamPaused = true ∧
    (feedData data now s).1.checkHandle = none ∧
    (∀ c ∈ (feedData data now s).2, c = TCall.pause) ∧
    (∀ es, feedFireOnly es = true → ∀ (t : ℚ) s2 t2 cs,
      runValid (feedData data now s).1 t es = some (s2, t2, cs) →
      s2.streamPaused = true ∧ TCall.resume ∉ cs) := by
  have hfeed := feedData_over_limit s data now hth (Or.inr hfc) hfull
  have hinv : overLimitPaused (feedData data now s).1 := by
    rw [hfeed.1]
    exact ⟨rfl, rfl, rfl, by simpa [bufSize, List.length_append] using hfull⟩
  refine ⟨by rw [hfeed.1], hinv.1, hinv.2.1, ?_, ?_⟩
  · intro c hc
    rw [hfeed.2] at hc
    split at hc
    · simp at hc
    · simpa using hc
  · intro es hff t s2 t2 cs h
    exact runValid_feedFire_paused es _ t hff hinv s2 t2 cs h

/-- C2 counterexample: the freshly constructed reader (rate 5,
`buffer_limit` 3, so `_b_limit = 6`). -/
def c2Start : ReaderState :=
  { throttle := { limit := 5, ioBytes := 0, resetTime := 0 }, buffer := [],
    bLimit := 6, bLimitReached := false, checkHandle := none,
    throttling := true, streamPaused := false, hasFlowControl := true }

/-- C2 counterexample: the reader right after the feed of 10 bytes at
`t = 0` brought occupancy to 10 ≥ 6: paused, no timer. -/
def c2Fed : ReaderState :=
  { throttle := { limit := 5, ioBytes := 10, resetTime := 0 },
    buffer := List.replicate 10 0, bLimit := 6, bLimitReached := true,
    checkHandle := none, throttling := true, streamPaused := true,
    hasFlowControl := true }

/-- C2 counterexample: the reader after a 1-byte read at `t = 1`: 9 bytes
buffered, still at or over the limit 6, with the rate timer scheduled for
`t = 3`. -/
def c2Mid : ReaderState :=
  { throttle := { limit := 5, ioBytes := 10, resetTime := 0 },
    buffer := List.replicate 9 0, bLimit := 6, bLimitReached := true,
    checkHandle := some 3, throttling := true, streamPaused := true,
    hasFlowControl := true }

/-- C2 counterexample: after a feed that brings occupancy to or over the
limit (10 ≥ 6, paused, no timer), a 1-byte drain leaves occupancy at
9 ≥ 6 — never under the limit — yet the post-drain check schedules a rate
timer and its firing at `t = 3` issues `resume_reading`: the transport is
resumed although no drain ever brought occupancy back under the limit,
refuting the claim's final clause. -/
theorem c2_counterexample :
    mkReader 5 3 false true 0 = Except.ok (c2Start, []) ∧
    step (Event.feed (List.replicate 10 0) 0) c2Start =
      (c2Fed, [TCall.pause]) ∧
    c2Fed.bLimit ≤ bufSize c2Fed ∧ c2Fed.checkHandle = none ∧
    runValid c2Start 0
      [Event.feed (List.replicate 10 0) 0, Event.readOp 1 1] =
      some (c2Mid, 1, [TCall.pause]) ∧
    c2Mid.bLimit ≤ bufSize c2Mid ∧
    validEvent c2Mid 1 (Event.timerFire 3) = true ∧
    (step (Event.timerFire 3) c2Mid).2 = [TCall.resume] ∧
    (step (Event.timerFire 3) c2Mid).1.streamPaused = false := by
  have h1 : step (Event.feed (List.replicate 10 0) 0) c2Start =
      (c2Fed, [TCall.pause]) := by
    norm_num [step, feedData, checkLimits, tryPause, scheduleResume, bufSize,
      Throttle.resetIo, Throttle.addIo, Throttle.timeLeft, c2Start, c2Fed,
      Prod.ext_iff]
  have h2 : step (Event.readOp 1 1) c2Fed = (c2Mid, []) := by
    norm_num [step, readDrain, checkBufferLimit, tryResume, scheduleResume,
      bufSize, Throttle.withinLimit, Throttle.currentRate, Throttle.timeLeft,
      c2Fed, c2Mid, Prod.ext_iff, List.drop_replicate, List.take_replicate]
  have hv1 : validEvent c2Start 0 (Event.feed (List.replicate 10 0) 0) =
      true := by decide
  have hv2 : validEvent c2Fed 0 (Event.readOp 1 1) = true := by decide
  refine ⟨rfl, h1, by decide, rfl, ?_, by decide, by decide, rfl, rfl⟩
  simp only [runValid, hv1, hv2, h1, h2, eventTime, if_true, List.nil_append,
    List.append_nil]

/-- C2 witness: the amended theorem instantiated on the concrete feed of
10 bytes into the fresh reader `c2Start` (occupancy 10 ≥ limit 6). -/
theorem c2_witness :
    (feedData (List.replicate 10 0) 0 c2Start).1.buffer =
      c2Start.buffer ++ List.replicate 10 0 ∧
    (feedData (List.replicate 10 0) 0 c2Start).1.streamPaused = true ∧
    (feedData (List.replicate 10 0) 0 c2Start).1.checkHandle = none :=
  ⟨(c2_feed_at_limit c2Start (List.replicate 10 0) 0 rfl rfl (by decide)).1,
   (c2_feed_at_limit c2Start (List.replicate 10 0) 0 rfl rfl (by decide)).2.1,
   (c2_feed_at_limit c2Start (List.replicate 10 0) 0 rfl rfl
     (by decide)).2.2.1⟩

end Aiothrottle
